import Mathlib

/-!
Verification development for a pairs-trading repository consisting of two
Python modules: strategy.py (a z-score driven position state machine) and
analytics.py (hedge-ratio estimation, spread construction, rolling z-score,
cointegration pipeline).

Modelling conventions:
* A pandas Series value is a rational number; a missing value (NaN) is
  modelled as `none` in `Option ℚ`.  Python comparisons against NaN
  evaluate to False, which the `nan*` comparison helpers reproduce.
* Division in pandas follows IEEE semantics: 0/0 and NaN/x give NaN,
  a/0 with a nonzero gives a signed infinity.  The codomain `PdVal`
  makes those outcomes explicit.
* Rolling statistics use the pandas defaults: window = min_periods, and
  sample statistics with ddof = 1.
-/

/-- Python comparison `z > c` where `z` may be NaN (`none`): NaN compares False. -/
def nanGt (z : Option ℚ) (c : ℚ) : Bool :=
  match z with
  | none => false
  | some q => decide (c < q)

/-- Python comparison `z < c` where `z` may be NaN: NaN compares False. -/
def nanLt (z : Option ℚ) (c : ℚ) : Bool :=
  match z with
  | none => false
  | some q => decide (q < c)

/-- Python comparison `abs(z) < c` where `z` may be NaN (abs(NaN) is NaN). -/
def nanAbsLt (z : Option ℚ) (c : ℚ) : Bool :=
  match z with
  | none => false
  | some q => decide (|q| < c)

/-- Python comparison `abs(z) > c` where `z` may be NaN (abs(NaN) is NaN). -/
def nanAbsGt (z : Option ℚ) (c : ℚ) : Bool :=
  match z with
  | none => false
  | some q => decide (c < |q|)

/-- One iteration of the loop body of `strategy` (strategy.py, lines 52-74):
carry the previous position forward, then evaluate entry rules when flat,
otherwise the mean-reversion exit followed by the stop-loss exit. -/
def strategyStep (entry_threshold exit_threshold stop_loss : ℚ)
    (prev : Int) (z : Option ℚ) : Int :=
  if prev = 0 then
    if nanGt z entry_threshold then -1
    else if nanLt z (-entry_threshold) then 1
    else prev
  else
    if nanAbsLt z exit_threshold then 0
    else if nanAbsGt z stop_loss then 0
    else prev

/-- Positions for indices 1..T-1: each element is obtained by applying the
loop body to the previous position and the current z-score. -/
def strategyAux (entry_threshold exit_threshold stop_loss : ℚ)
    (prev : Int) : List (Option ℚ) → List Int
  | [] => []
  | z :: rest =>
    let p := strategyStep entry_threshold exit_threshold stop_loss prev z
    p :: strategyAux entry_threshold exit_threshold stop_loss p rest

/-- The `strategy` function of strategy.py.  `z_scores` is the z-score series
(`none` = NaN), `betas` and `spreads` are accepted but unused, and the three
thresholds are the keyword parameters (defaults 2, 0.5, 4 at call sites).
The positions series is initialised to 0 everywhere and the loop starts at
index 1, so position 0 is always 0. -/
def strategy (z_scores : List (Option ℚ)) (betas spreads : List (Option ℚ))
    (entry_threshold exit_threshold stop_loss : ℚ) : List Int :=
  match z_scores with
  | [] => []
  | _ :: rest => 0 :: strategyAux entry_threshold exit_threshold stop_loss 0 rest

/-! ### analytics.py: rolling statistics, dynamic beta, z-score, pipeline

Pandas rolling statistics use the defaults of the source: min_periods equal
to the window and sample statistics with ddof = 1 (so a window of size 1
yields NaN for var/std/cov, and values before the window is full are NaN).
`PdVal` records the IEEE outcome of an elementwise division. -/

/-- Mean of a full window (pandas rolling mean of a complete window). -/
def sampleMean (l : List ℚ) : ℚ := l.sum / (l.length : ℚ)

/-- Sample covariance (ddof = 1, the pandas default) of two equal-length windows. -/
def sampleCov (xs ys : List ℚ) : ℚ :=
  (List.zipWith (fun a b => (a - sampleMean xs) * (b - sampleMean ys)) xs ys).sum
    / ((xs.length : ℚ) - 1)

/-- The window of (at most) `w` points of `s` ending at index `t`. -/
def windowSlice (s : List ℚ) (w t : ℕ) : List ℚ := (s.take (t + 1)).drop (t + 1 - w)

/-- Pandas `x.rolling(window).cov(y)` at index `t`: a value once the window is
full (`window ≤ t + 1`, index in range) and the sample statistic exists
(`2 ≤ window`: with ddof = 1 a single observation gives 0/0, hence NaN);
NaN (`none`) otherwise. -/
def rollingCov (x y : List ℚ) (window t : ℕ) : Option ℚ :=
  if 2 ≤ window ∧ window ≤ t + 1 ∧ t < x.length ∧ t < y.length then
    some (sampleCov (windowSlice x window t) (windowSlice y window t))
  else none

/-- Pandas `y.rolling(window).var()` at index `t`: the sample variance is the
sample covariance of the series with itself. -/
def rollingVar (y : List ℚ) (window t : ℕ) : Option ℚ := rollingCov y y window t

/-- Pandas rolling mean at index `t` (defined once the window is full). -/
def rollingMean (s : List ℚ) (window t : ℕ) : Option ℚ :=
  if 1 ≤ window ∧ window ≤ t + 1 ∧ t < s.length then
    some (sampleMean (windowSlice s window t))
  else none

/-- Outcome of an elementwise pandas division: NaN, a finite value, or a
signed infinity. -/
inductive PdVal where
  | na : PdVal
  | val : ℚ → PdVal
  | pinf : PdVal
  | ninf : PdVal
deriving DecidableEq

/-- IEEE division as performed elementwise by pandas: NaN operands give NaN,
0/0 gives NaN, a/0 with a nonzero gives a signed infinity. -/
def pdDiv (a b : Option ℚ) : PdVal :=
  match a, b with
  | none, _ => PdVal.na
  | _, none => PdVal.na
  | some a, some b =>
    if b = 0 then
      if a = 0 then PdVal.na else if 0 < a then PdVal.pinf else PdVal.ninf
    else PdVal.val (a / b)

/-- `compute_dynamic_beta` of analytics.py: rolling hedge ratio
`beta = x.rolling(window).cov(y) / y.rolling(window).var()`, elementwise
over the index of `x`. -/
def compute_dynamic_beta (x y : List ℚ) (window : ℕ) : List PdVal :=
  (List.range x.length).map
    (fun t => pdDiv (rollingCov x y window t) (rollingVar y window t))

/-- Pandas rolling standard deviation: the square root of the rolling sample
variance.  The numerical square root is abstracted as the parameter `sqrtQ`
(the definedness claims never need its value, only the rolling variance and
whether the standard deviation is zero). -/
def rollingStd (sqrtQ : ℚ → ℚ) (s : List ℚ) (window t : ℕ) : Option ℚ :=
  Option.map sqrtQ (rollingVar s window t)

/-- `compute_zscore` of analytics.py:
`z = (series - series.rolling(window).mean()) / series.rolling(window).std()`,
elementwise over the index of `series`. -/
def compute_zscore (sqrtQ : ℚ → ℚ) (series : List ℚ) (window : ℕ) : List PdVal :=
  (List.range series.length).map
    (fun t =>
      pdDiv ((rollingMean series window t).map (fun m => series.getD t 0 - m))
        (rollingStd sqrtQ series window t))

/-- `compute_static_beta` of analytics.py fits `x = alpha + beta * y` through
the external OLS Regression Primitive (statsmodels) and returns the slope.
The primitive is an out-of-scope collaborator, abstracted as the parameter
`ols`. -/
def compute_static_beta (ols : List ℚ → List ℚ → ℚ) (x y : List ℚ) : ℚ := ols x y

/-- `compute_spread` of analytics.py with a scalar (static) beta:
`spread = x - beta * y`, elementwise. -/
def compute_spread (x y : List ℚ) (beta : ℚ) : List ℚ :=
  List.zipWith (fun a b => a - beta * b) x y

/-- `adf_test` of analytics.py: drops missing values and applies the external
Stationarity Primitive (abstracted as `adf`), returning the p-value.  The
static spread contains no missing values, so dropna is the identity here. -/
def adf_test (adf : List ℚ → ℚ) (series : List ℚ) : ℚ := adf series

/-- A pandas DataFrame: named columns over one shared index.  Column lookup
can fail (KeyError); in a real DataFrame all columns have the index length. -/
structure DataFrame where
  cols : List (String × List ℚ)

/-- Column lookup, `df[name]`. -/
def DataFrame.get (df : DataFrame) (name : String) : Option (List ℚ) :=
  (df.cols.find? (fun c => c.1 == name)).map (fun c => c.2)

/-- The dictionary returned by the analysis pipelines. -/
structure ResultBundle where
  beta : ℚ
  spread : List ℚ
  zscore : List PdVal
  adf_p : ℚ
deriving DecidableEq

/-- `analyze_pair_static` of analytics.py: extract the two columns, then
unconditionally compute the static beta, the spread, the z-score and the ADF
p-value.  The only failure is a missing column name; no alignment check of
any kind is performed. -/
def analyze_pair_static (ols : List ℚ → List ℚ → ℚ) (adf : List ℚ → ℚ)
    (sqrtQ : ℚ → ℚ) (df : DataFrame) (x y : String) (window : ℕ) :
    Option ResultBundle :=
  match df.get x, df.get y with
  | some X, some Y =>
    some ⟨compute_static_beta ols X Y,
      compute_spread X Y (compute_static_beta ols X Y),
      compute_zscore sqrtQ (compute_spread X Y (compute_static_beta ols X Y)) window,
      adf_test adf (compute_spread X Y (compute_static_beta ols X Y))⟩
  | _, _ => none

/-! ### Basic facts about the position recurrence -/

lemma strategyStep_none (e x s : ℚ) (prev : Int) :
    strategyStep e x s prev none = prev := by
  by_cases h : prev = 0 <;>
    simp [strategyStep, nanGt, nanLt, nanAbsLt, nanAbsGt, h]

lemma strategyStep_some (e x s : ℚ) (prev : Int) (q : ℚ) :
    strategyStep e x s prev (some q) =
      if prev = 0 then
        (if e < q then -1 else if q < -e then 1 else 0)
      else
        (if |q| < x then 0 else if s < |q| then 0 else prev) := by
  by_cases h : prev = 0 <;>
    simp [strategyStep, nanGt, nanLt, nanAbsLt, nanAbsGt, h]

lemma strategyAux_length (e x s : ℚ) (p : Int) (zs : List (Option ℚ)) :
    (strategyAux e x s p zs).length = zs.length := by
  induction zs generalizing p with
  | nil => rfl
  | cons z rest ih => simp [strategyAux, ih]

lemma strategyAux_getD_succ (e x s : ℚ) (zs : List (Option ℚ)) (p : Int) (t : ℕ)
    (h : t + 1 < zs.length) :
    (strategyAux e x s p zs).getD (t + 1) 0
      = strategyStep e x s ((strategyAux e x s p zs).getD t 0) (zs.getD (t + 1) none) := by
  induction zs generalizing p t with
  | nil => simp at h
  | cons z rest ih =>
    cases t with
    | zero =>
      cases rest with
      | nil => simp at h
      | cons z2 rest2 => simp [strategyAux]
    | succ t2 =>
      have h2 : t2 + 1 < rest.length := by simpa using h
      simpa [strategyAux] using ih (strategyStep e x s p z) t2 h2

lemma strategy_length (zs b sp : List (Option ℚ)) (e x s : ℚ) :
    (strategy zs b sp e x s).length = zs.length := by
  cases zs with
  | nil => rfl
  | cons z rest => simp [strategy, strategyAux_length]

lemma strategy_getD_zero (zs b sp : List (Option ℚ)) (e x s : ℚ) :
    (strategy zs b sp e x s).getD 0 0 = 0 := by
  cases zs <;> rfl

lemma strategy_getD_succ (zs b sp : List (Option ℚ)) (e x s : ℚ) (t : ℕ)
    (h : t + 1 < zs.length) :
    (strategy zs b sp e x s).getD (t + 1) 0
      = strategyStep e x s ((strategy zs b sp e x s).getD t 0) (zs.getD (t + 1) none) := by
  cases zs with
  | nil => simp at h
  | cons z rest =>
    cases t with
    | zero =>
      cases rest with
      | nil => simp at h
      | cons z2 rest2 => simp [strategy, strategyAux]
    | succ t2 =>
      have h2 : t2 + 1 < rest.length := by simpa using h
      simpa [strategy] using strategyAux_getD_succ e x s rest 0 t2 h2

/-! ### Claim theorems: the position state machine -/

/-- Claim C1: for every z-score series and thresholds, `strategy` returns a
position series over the same index with position 0 equal to FLAT, and at
every step t ≥ 1 whose z-score is defined: from FLAT it enters short when
z exceeds the entry threshold, long when z is below its negation, and stays
flat otherwise; from a trade it exits to flat when the absolute z-score is
below the exit threshold, else exits to flat when it exceeds the stop loss,
else keeps the previous position. -/
theorem strategy_follows_threshold_rules
    (e x s : ℚ) (zs b sp : List (Option ℚ)) :
    (strategy zs b sp e x s).length = zs.length ∧
    (strategy zs b sp e x s).getD 0 0 = 0 ∧
    ∀ t q, t + 1 < zs.length → zs.getD (t + 1) none = some q →
      ((strategy zs b sp e x s).getD t 0 = 0 →
        (strategy zs b sp e x s).getD (t + 1) 0
          = if e < q then -1 else if q < -e then 1 else 0) ∧
      ((strategy zs b sp e x s).getD t 0 ≠ 0 →
        (strategy zs b sp e x s).getD (t + 1) 0
          = if |q| < x then 0 else if s < |q| then 0
            else (strategy zs b sp e x s).getD t 0) := by
  refine ⟨strategy_length zs b sp e x s, strategy_getD_zero zs b sp e x s, ?_⟩
  intro t q ht hq
  rw [strategy_getD_succ zs b sp e x s t ht, hq, strategyStep_some]
  constructor
  · intro h
    rw [if_pos h]
  · intro h
    rw [if_neg h]

/-- Witness for C1: with entry 2, exit 1/2, stop 4 and z-scores [NaN, 3],
the step rule applied at index 1 from FLAT gives a short entry. -/
theorem strategy_follows_threshold_rules_witness :
    (strategy [none, some 3] [] [] 2 (mkRat 1 2) 4).getD 1 0 = -1 := by
  have h := ((strategy_follows_threshold_rules 2 (mkRat 1 2) 4
      [none, some 3] [] []).2.2 0 3 (by decide) (by decide)).1 (by decide)
  rw [h, if_pos (by norm_num)]

/-- Claim C2 counterexample: with entry 2, exit 0.5, stop 4 and z-scores
[NaN, 0.1, 2.5, 1.0, 0.3, 5.0], the code does NOT return
[0, 0, -1, -1, 0, 0]: at index 5 the previous position is flat and
5.0 > 2 re-enters a short position. -/
theorem strategy_concrete_scenario_counterexample :
    strategy [none, some (mkRat 1 10), some (mkRat 5 2), some 1, some (mkRat 3 10), some 5]
        [] [] 2 (mkRat 1 2) 4 ≠ [0, 0, -1, -1, 0, 0] := by decide

/-- Claim C2 amended: with entry 2, exit 0.5, stop 4 and z-scores
[NaN, 0.1, 2.5, 1.0, 0.3, 5.0], the code returns exactly
[0, 0, -1, -1, 0, -1] (re-entry short at index 5). -/
theorem strategy_concrete_scenario_reentry :
    strategy [none, some (mkRat 1 10), some (mkRat 5 2), some 1, some (mkRat 3 10), some 5]
        [] [] 2 (mkRat 1 2) 4 = [0, 0, -1, -1, 0, -1] := by decide

/-- Claim C3 counterexample: with exit threshold 3 above entry threshold 2
(violating exit < entry < stopLoss), `strategy` does not fail at
construction: it processes the whole series and returns positions,
entering a short at index 1.  No configuration validation exists in the
code. -/
theorem strategy_runs_with_invalid_thresholds :
    strategy [some 0, some (mkRat 5 2)] [] [] 2 3 4 = [0, -1] := by decide

/-- Claim C3 amended: the code performs no validation of the threshold
ordering (and the analytics functions none of the window): for every
thresholds, including ones violating exit < entry < stopLoss, `strategy`
processes the full series and returns a position series of the same
length; no ConfigurationError exists anywhere in the code. -/
theorem strategy_total_for_all_thresholds
    (zs b sp : List (Option ℚ)) (e x s : ℚ) :
    (strategy zs b sp e x s).length = zs.length :=
  strategy_length zs b sp e x s

/-- Claim C4: hysteresis.  Once the position is nonflat at step t0, it stays
exactly that position through every later step whose defined z-score keeps
its absolute value inside the closed band [exit, stop]; and a nonflat
position only returns to flat at a step whose z-score is defined with
absolute value below the exit threshold or above the stop loss. -/
theorem strategy_hysteresis (e x s : ℚ) (zs b sp : List (Option ℚ)) :
    (∀ t0 t : ℕ, t0 ≤ t → t < zs.length →
      (strategy zs b sp e x s).getD t0 0 ≠ 0 →
      (∀ u, t0 < u → u ≤ t → ∃ q, zs.getD u none = some q ∧ x ≤ |q| ∧ |q| ≤ s) →
      (strategy zs b sp e x s).getD t 0 = (strategy zs b sp e x s).getD t0 0) ∧
    (∀ t : ℕ, t + 1 < zs.length →
      (strategy zs b sp e x s).getD t 0 ≠ 0 →
      (strategy zs b sp e x s).getD (t + 1) 0 = 0 →
      ∃ q, zs.getD (t + 1) none = some q ∧ (|q| < x ∨ s < |q|)) := by
  constructor
  · intro t0 t h01 hlen hne hband
    revert hlen hband
    induction t, h01 using Nat.le_induction with
    | base => intro _ _; rfl
    | succ k hk ih =>
      intro hlen hband
      obtain ⟨q, hq, hxq, hqs⟩ := hband (k + 1) (Nat.lt_succ_of_le hk) (le_refl _)
      have hklen : k < zs.length := Nat.lt_of_succ_lt hlen
      have hpk := ih hklen (fun u hu1 hu2 => hband u hu1 (Nat.le_succ_of_le hu2))
      rw [strategy_getD_succ zs b sp e x s k hlen, hq, strategyStep_some, hpk,
        if_neg hne, if_neg (not_lt.2 hxq), if_neg (not_lt.2 hqs)]
  · intro t ht hne h0
    rw [strategy_getD_succ zs b sp e x s t ht] at h0
    cases hz : zs.getD (t + 1) none with
    | none =>
      rw [hz, strategyStep_none] at h0
      exact absurd h0 hne
    | some q =>
      rw [hz, strategyStep_some, if_neg hne] at h0
      refine ⟨q, rfl, ?_⟩
      by_cases h1 : |q| < x
      · exact Or.inl h1
      · by_cases h2 : s < |q|
        · exact Or.inr h2
        · rw [if_neg h1, if_neg h2] at h0
          exact absurd h0 hne

/-- Witness for C4: with z-scores [NaN, 3, 2, 2] the short entered at index 1
is still held at index 3, its absolute z-scores staying inside [1/2, 4]. -/
theorem strategy_hysteresis_witness :
    (strategy [none, some 3, some 2, some 2] [] [] 2 (mkRat 1 2) 4).getD 3 0
      = (strategy [none, some 3, some 2, some 2] [] [] 2 (mkRat 1 2) 4).getD 1 0 := by
  refine (strategy_hysteresis 2 (mkRat 1 2) 4 [none, some 3, some 2, some 2] [] []).1
    1 3 (by decide) (by decide) (by decide) ?_
  intro u hu1 hu2
  interval_cases u
  · exact ⟨2, by decide, by decide, by decide⟩
  · exact ⟨2, by decide, by decide, by decide⟩

/-- Claim C5: a step whose z-score is undefined (NaN) carries the previous
position forward unchanged, whatever that position is: NaN compares false
in every entry, exit and stop-loss condition. -/
theorem strategy_undefined_z_carries_position
    (e x s : ℚ) (zs b sp : List (Option ℚ)) (t : ℕ)
    (ht : t + 1 < zs.length) (hz : zs.getD (t + 1) none = none) :
    (strategy zs b sp e x s).getD (t + 1) 0 = (strategy zs b sp e x s).getD t 0 := by
  rw [strategy_getD_succ zs b sp e x s t ht, hz, strategyStep_none]

/-- Witness for C5: with z-scores [NaN, 3, NaN] the position entered at
index 1 is carried unchanged through the NaN at index 2. -/
theorem strategy_undefined_z_carries_position_witness :
    (strategy [none, some 3, none] [] [] 2 (mkRat 1 2) 4).getD 2 0
      = (strategy [none, some 3, none] [] [] 2 (mkRat 1 2) 4).getD 1 0 :=
  strategy_undefined_z_carries_position 2 (mkRat 1 2) 4 [none, some 3, none] [] [] 1
    (by decide) (by decide)

/-- Claim C9: noninterference of the inert parameters.  For a fixed z-score
series and thresholds, any two choices of the betas and spreads arguments
give identical position series: the output depends only on the z-scores and
the thresholds. -/
theorem strategy_ignores_betas_and_spreads
    (zs b1 sp1 b2 sp2 : List (Option ℚ)) (e x s : ℚ) :
    strategy zs b1 sp1 e x s = strategy zs b2 sp2 e x s := rfl

/-- Claim C10: the position never flips directly between long and short: from
+1 the next position is +1 or 0, from -1 it is -1 or 0 (in particular a
stop-loss exit lands on flat, never on the opposite side). -/
theorem strategy_no_direct_flip (e x s : ℚ) (zs b sp : List (Option ℚ)) (t : ℕ)
    (ht : t + 1 < zs.length) :
    ((strategy zs b sp e x s).getD t 0 = 1 →
      (strategy zs b sp e x s).getD (t + 1) 0 = 1 ∨
      (strategy zs b sp e x s).getD (t + 1) 0 = 0) ∧
    ((strategy zs b sp e x s).getD t 0 = -1 →
      (strategy zs b sp e x s).getD (t + 1) 0 = -1 ∨
      (strategy zs b sp e x s).getD (t + 1) 0 = 0) := by
  rw [strategy_getD_succ zs b sp e x s t ht]
  cases hz : zs.getD (t + 1) none with
  | none =>
    rw [strategyStep_none]
    exact ⟨fun h => Or.inl h, fun h => Or.inl h⟩
  | some q =>
    rw [strategyStep_some]
    constructor
    · intro h
      rw [h, if_neg (by norm_num : (1 : Int) ≠ 0)]
      split_ifs <;> simp
    · intro h
      rw [h, if_neg (by norm_num : (-1 : Int) ≠ 0)]
      split_ifs <;> simp

/-- Witness for C10: with z-scores [NaN, 3, 5] the short at index 1 moves to
flat at index 2 (stop loss), not to the opposite side. -/
theorem strategy_no_direct_flip_witness :
    (strategy [none, some 3, some 5] [] [] 2 (mkRat 1 2) 4).getD 2 0 = -1 ∨
    (strategy [none, some 3, some 5] [] [] 2 (mkRat 1 2) 4).getD 2 0 = 0 :=
  (strategy_no_direct_flip 2 (mkRat 1 2) 4 [none, some 3, some 5] [] [] 1
    (by decide)).2 (by decide)

/-! ### Claim theorems: analytics -/

lemma getD_map_range {α : Type} (n : ℕ) (f : ℕ → α) (d : α) (t : ℕ) (h : t < n) :
    ((List.range n).map f).getD t d = f t := by
  rw [List.getD_eq_getD_get?, List.get?_map, List.get?_range h]
  rfl

lemma windowSlice_length (s : List ℚ) (w t : ℕ) (hwt : w ≤ t + 1) (hts : t < s.length) :
    (windowSlice s w t).length = w := by
  rw [windowSlice, List.length_drop, List.length_take]
  omega

lemma zipWith_self_eq_map (f : ℚ → ℚ → ℚ) :
    ∀ l : List ℚ, List.zipWith f l l = l.map (fun a => f a a)
  | [] => rfl
  | a :: r => by simp [zipWith_self_eq_map f r]

lemma list_sum_nonneg : ∀ l : List ℚ, (∀ a ∈ l, 0 ≤ a) → 0 ≤ l.sum := by
  intro l
  induction l with
  | nil => intro _; simp
  | cons a r ih =>
    intro h
    have ha := h a (by simp)
    have hr := ih (fun c hc => h c (by simp [hc]))
    simp only [List.sum_cons]
    linarith

lemma sum_nonneg_all_zero : ∀ l : List ℚ, (∀ a ∈ l, 0 ≤ a) → l.sum = 0 → ∀ a ∈ l, a = 0 := by
  intro l
  induction l with
  | nil => simp
  | cons a r ih =>
    intro hpos hsum b hb
    have ha := hpos a (by simp)
    have hr := list_sum_nonneg r (fun c hc => hpos c (by simp [hc]))
    rw [List.sum_cons] at hsum
    have ha0 : a = 0 := by linarith
    have hr0 : r.sum = 0 := by linarith
    rcases List.mem_cons.mp hb with rfl | hb2
    · exact ha0
    · exact ih (fun c hc => hpos c (by simp [hc])) hr0 b hb2

lemma zipWith_sum_zero_of_right_const (mx my : ℚ) :
    ∀ xs ys : List ℚ, (∀ b ∈ ys, b = my) →
      (List.zipWith (fun a b => (a - mx) * (b - my)) xs ys).sum = 0 := by
  intro xs
  induction xs with
  | nil => intro ys _; simp
  | cons a r ih =>
    intro ys h
    cases ys with
    | nil => simp
    | cons b s =>
      have hb : b = my := h b (by simp)
      have hrest := ih s (fun c hc => h c (by simp [hc]))
      simp [hrest, hb]

/-- Claim C6: at every index where the rolling variance of y over the window
is zero, `compute_dynamic_beta` yields an undefined (NaN) beta: the window
of y is then constant, so the rolling covariance is zero too and the
elementwise division is 0/0, which is NaN rather than a division error (the
total function `pdDiv` has no error outcome). -/
theorem compute_dynamic_beta_zero_var_undefined (x y : List ℚ) (w t : ℕ)
    (hx : t < x.length) (hvar : rollingVar y w t = some 0) :
    (compute_dynamic_beta x y w).getD t PdVal.na = PdVal.na := by
  have hcond : 2 ≤ w ∧ w ≤ t + 1 ∧ t < y.length ∧ t < y.length := by
    by_contra hc
    rw [rollingVar, rollingCov, if_neg hc] at hvar
    exact Option.noConfusion hvar
  obtain ⟨hw2, hwt, hylen, -⟩ := hcond
  have hcv : sampleCov (windowSlice y w t) (windowSlice y w t) = 0 := by
    rw [rollingVar, rollingCov, if_pos ⟨hw2, hwt, hylen, hylen⟩] at hvar
    exact Option.some.inj hvar
  have hLen : (windowSlice y w t).length = w := windowSlice_length y w t hwt hylen
  have hden : ((windowSlice y w t).length : ℚ) - 1 ≠ 0 := by
    rw [hLen]
    have h2 : (2 : ℚ) ≤ (w : ℚ) := by exact_mod_cast hw2
    linarith
  have hnum : (List.zipWith
      (fun a b => (a - sampleMean (windowSlice y w t)) * (b - sampleMean (windowSlice y w t)))
      (windowSlice y w t) (windowSlice y w t)).sum = 0 := by
    rw [sampleCov] at hcv
    rcases div_eq_zero_iff.mp hcv with h | h
    · exact h
    · exact absurd h hden
  have hnum2 : ((windowSlice y w t).map
      (fun a => (a - sampleMean (windowSlice y w t)) * (a - sampleMean (windowSlice y w t)))).sum
        = 0 := by
    have h3 := hnum
    rw [zipWith_self_eq_map] at h3
    simpa using h3
  have hall : ∀ a ∈ windowSlice y w t, a = sampleMean (windowSlice y w t) := by
    intro a ha
    have hmap : ∀ c ∈ (windowSlice y w t).map
        (fun a => (a - sampleMean (windowSlice y w t)) * (a - sampleMean (windowSlice y w t))),
        c = 0 := by
      apply sum_nonneg_all_zero
      · intro c hc
        obtain ⟨a2, -, rfl⟩ := List.mem_map.mp hc
        exact mul_self_nonneg _
      · exact hnum2
    have hz := hmap _ (List.mem_map.mpr ⟨a, ha, rfl⟩)
    have := sub_eq_zero.mp (mul_self_eq_zero.mp hz)
    exact this
  have hcov : rollingCov x y w t = some 0 := by
    rw [rollingCov, if_pos ⟨hw2, hwt, hx, hylen⟩]
    congr 1
    rw [sampleCov,
      zipWith_sum_zero_of_right_const (sampleMean (windowSlice x w t))
        (sampleMean (windowSlice y w t)) (windowSlice x w t) (windowSlice y w t) hall,
      zero_div]
  rw [compute_dynamic_beta, getD_map_range x.length _ PdVal.na t hx, hcov, hvar]
  simp [pdDiv]

/-- Witness for C6: y = [3, 3] has zero rolling variance over a window of 2
at index 1, and the dynamic beta there is NaN. -/
theorem compute_dynamic_beta_zero_var_undefined_witness :
    rollingVar [3, 3] 2 1 = some 0 ∧
    (compute_dynamic_beta [1, 2] [3, 3] 2).getD 1 PdVal.na = PdVal.na := by
  have hv : rollingVar [3, 3] 2 1 = some 0 := by
    norm_num [rollingVar, rollingCov, sampleCov, sampleMean, windowSlice]
  exact ⟨hv, compute_dynamic_beta_zero_var_undefined [1, 2] [3, 3] 2 1 (by norm_num) hv⟩

/-- Claim C7: for a window w ≥ 2 and a series of at least w points,
`compute_zscore` is undefined (NaN) at each of the first w-1 indices, and is
a finite value at index w-1 provided the rolling standard deviation there is
nonzero. -/
theorem compute_zscore_warmup_and_first_defined
    (sqrtQ : ℚ → ℚ) (series : List ℚ) (w : ℕ)
    (hw : 2 ≤ w) (hlen : w ≤ series.length) :
    (∀ i, i < w - 1 → (compute_zscore sqrtQ series w).getD i PdVal.na = PdVal.na) ∧
    (rollingStd sqrtQ series w (w - 1) ≠ some 0 →
      ∃ q, (compute_zscore sqrtQ series w).getD (w - 1) PdVal.na = PdVal.val q) := by
  constructor
  · intro i hi
    have hilen : i < series.length := by omega
    rw [compute_zscore, getD_map_range series.length _ PdVal.na i hilen]
    have hmean : rollingMean series w i = none := by
      rw [rollingMean, if_neg]
      rintro ⟨-, h2, -⟩
      omega
    rw [hmean]
    simp [pdDiv]
  · intro hstd
    have ht : w - 1 < series.length := by omega
    have hwt : w ≤ (w - 1) + 1 := by omega
    have hvar : rollingVar series w (w - 1)
        = some (sampleCov (windowSlice series w (w - 1)) (windowSlice series w (w - 1))) := by
      rw [rollingVar, rollingCov, if_pos ⟨hw, hwt, ht, ht⟩]
    have hstd2 : rollingStd sqrtQ series w (w - 1)
        = some (sqrtQ (sampleCov (windowSlice series w (w - 1)) (windowSlice series w (w - 1)))) := by
      rw [rollingStd, hvar]
      rfl
    have hmean : rollingMean series w (w - 1)
        = some (sampleMean (windowSlice series w (w - 1))) := by
      rw [rollingMean, if_pos ⟨by omega, hwt, ht⟩]
    rw [hstd2] at hstd
    have hne : sqrtQ (sampleCov (windowSlice series w (w - 1)) (windowSlice series w (w - 1))) ≠ 0 :=
      fun h => hstd (by rw [h])
    rw [compute_zscore, getD_map_range series.length _ PdVal.na (w - 1) ht, hmean, hstd2]
    refine ⟨(series.getD (w - 1) 0 - sampleMean (windowSlice series w (w - 1)))
      / sqrtQ (sampleCov (windowSlice series w (w - 1)) (windowSlice series w (w - 1))), ?_⟩
    simp [pdDiv, hne]

/-- Witness for C7: with window 2 and series [0, 1], the z-score is NaN at
index 0, and index 1 has nonzero rolling std hence a finite z-score. -/
theorem compute_zscore_warmup_and_first_defined_witness :
    (compute_zscore id [0, 1] 2).getD 0 PdVal.na = PdVal.na ∧
    ∃ q, (compute_zscore id [0, 1] 2).getD 1 PdVal.na = PdVal.val q := by
  have h := compute_zscore_warmup_and_first_defined id [0, 1] 2 (by norm_num) (by norm_num)
  refine ⟨h.1 0 (by norm_num), h.2 ?_⟩
  norm_num [rollingStd, rollingVar, rollingCov, sampleCov, sampleMean, windowSlice]

lemma analyze_pair_static_get_eq (ols : List ℚ → List ℚ → ℚ) (adf : List ℚ → ℚ)
    (sqrtQ : ℚ → ℚ) (df : DataFrame) (x y : String) (w : ℕ) (X Y : List ℚ)
    (hx : df.get x = some X) (hy : df.get y = some Y) :
    analyze_pair_static ols adf sqrtQ df x y w
      = some ⟨compute_static_beta ols X Y,
          compute_spread X Y (compute_static_beta ols X Y),
          compute_zscore sqrtQ (compute_spread X Y (compute_static_beta ols X Y)) w,
          adf_test adf (compute_spread X Y (compute_static_beta ols X Y))⟩ := by
  unfold analyze_pair_static
  rw [hx, hy]

/-- Claim C8 counterexample: even with two columns of different lengths
([1, 2, 3] against [1, 2] — a mismatch a genuine DataFrame cannot even
express), `analyze_pair_static` does not fail fast with an alignment error:
no AlignmentError exists in the code, and the pipeline computes the beta,
the spread (silently truncated by the elementwise arithmetic), the z-score
and the diagnostic, returning a complete result bundle. -/
theorem analyze_pair_static_mismatched_counterexample :
    analyze_pair_static (fun _ _ => 0) (fun _ => 0) id
        ⟨[("a", [1, 2, 3]), ("b", [1, 2])]⟩ "a" "b" 2
      = some ⟨0, [1, 2], [PdVal.na, PdVal.val 1], 0⟩ := by
  have hbeta : compute_static_beta (fun _ _ => 0) [1, 2, 3] [1, 2] = 0 := rfl
  have hsp : compute_spread [1, 2, 3] [1, 2] 0 = [1, 2] := by
    norm_num [compute_spread]
  have hz : compute_zscore id [1, 2] 2 = [PdVal.na, PdVal.val 1] := by
    norm_num [compute_zscore, rollingMean, rollingStd, rollingVar, rollingCov,
      sampleCov, sampleMean, windowSlice, pdDiv, List.range_succ]
  rw [analyze_pair_static_get_eq (fun _ _ => 0) (fun _ => 0) id
      ⟨[("a", [1, 2, 3]), ("b", [1, 2])]⟩ "a" "b" 2 [1, 2, 3] [1, 2] rfl rfl,
    hbeta, hsp, hz]
  rfl

/-- Claim C8 amended: the pipelines perform no alignment validation at all.
Whenever the two requested columns exist — whether or not their lengths
match — `analyze_pair_static` unconditionally computes the static beta, the
spread, the z-score and the ADF p-value and returns the full result bundle;
its only failure mode is a missing column name.  (A real DataFrame cannot
even hold two columns of mismatched length, so the mismatch of the claim is
unreachable through the actual interface.) -/
theorem analyze_pair_static_no_alignment_check (ols : List ℚ → List ℚ → ℚ)
    (adf : List ℚ → ℚ) (sqrtQ : ℚ → ℚ) (df : DataFrame) (x y : String) (w : ℕ)
    (X Y : List ℚ) (hx : df.get x = some X) (hy : df.get y = some Y) :
    analyze_pair_static ols adf sqrtQ df x y w
      = some ⟨compute_static_beta ols X Y,
          compute_spread X Y (compute_static_beta ols X Y),
          compute_zscore sqrtQ (compute_spread X Y (compute_static_beta ols X Y)) w,
          adf_test adf (compute_spread X Y (compute_static_beta ols X Y))⟩ :=
  analyze_pair_static_get_eq ols adf sqrtQ df x y w X Y hx hy

/-- Witness for the amended C8: a concrete two-column frame on which the
static pipeline returns the computed bundle. -/
theorem analyze_pair_static_no_alignment_check_witness :
    analyze_pair_static (fun _ _ => 0) (fun _ => 0) id
        ⟨[("a", [1, 2]), ("b", [3, 4])]⟩ "a" "b" 2
      = some ⟨compute_static_beta (fun _ _ => 0) [1, 2] [3, 4],
          compute_spread [1, 2] [3, 4] (compute_static_beta (fun _ _ => 0) [1, 2] [3, 4]),
          compute_zscore id
            (compute_spread [1, 2] [3, 4] (compute_static_beta (fun _ _ => 0) [1, 2] [3, 4])) 2,
          adf_test (fun _ => 0)
            (compute_spread [1, 2] [3, 4] (compute_static_beta (fun _ _ => 0) [1, 2] [3, 4]))⟩ :=
  analyze_pair_static_no_alignment_check (fun _ _ => 0) (fun _ => 0) id
    ⟨[("a", [1, 2]), ("b", [3, 4])]⟩ "a" "b" 2 [1, 2] [3, 4] rfl rfl
